import Mathlib

/-!
Verification of the VulkanSurface presentation-surface manager
(src/libs/hwui/renderthread/VulkanSurface.h).

The repository excerpt contains only the class header; the implementation
unit (VulkanSurface.cpp) with the bodies of dequeueNativeBuffer,
presentCurrentBuffer, releaseBuffers, ComputeWindowSizeAndTransform and
getCurrentBuffersAge is not under src/.  Those operations are therefore
modelled from the specification (spec.md sections 4.2-4.5 and 3), as
noted on each definition.  Field names, default values and the inline
body of getCurrentSkSurface are taken directly from the header.
-/

namespace VulkanSurfaceModel

/-- Model of SkISize: a pair of 32-bit signed dimensions, modelled as
integers (the header stores sizes as C int via SkISize). -/
structure SkISize where
  width : Int
  height : Int
deriving DecidableEq, Repr

/-- Swap of width and height, used when the compositor transform rotates
by 90 or 270 degrees. -/
def SkISize.swap (s : SkISize) : SkISize := ⟨s.height, s.width⟩

/-- Model of the affine part of an SkMatrix (the 3x3 matrices produced by
the geometry computation always have last row 0 0 1 and integer entries
0, 1, -1, width or height). -/
structure SkMatrix where
  scaleX : Int
  skewX : Int
  transX : Int
  skewY : Int
  scaleY : Int
  transY : Int
deriving DecidableEq, Repr

/-- The identity matrix. -/
def SkMatrix.I : SkMatrix := ⟨1, 0, 0, 0, 1, 0⟩

/-- Model of VulkanSurface::WindowInfo (header lines 93-105): logical
size, window parameters, compositor transform, and the two derived
outputs actualSize and preTransform.  The transform is the ANativeWindow
transform bitmask stored in the header field int transform; bit 1 is a
horizontal flip, bit 2 a vertical flip, bit 4 the 90-degree rotation
component. -/
structure WindowInfo where
  size : SkISize
  pixelFormat : Nat
  dataspace : Nat
  transform : Nat
  bufferCount : Nat
  windowUsageFlags : Nat
  actualSize : SkISize
  preTransform : SkMatrix
deriving DecidableEq, Repr

/-- The 90-degree-rotation bit of the transform bitmask
(NATIVE_WINDOW_TRANSFORM_ROT_90). -/
def TRANSFORM_ROT_90 : Nat := 4

/-- Clamp an integer into the interval from lo to hi, computed as
min (max x lo) hi as the spec's clamp of logical size into
[min-size, max-size]. -/
def clampI (x lo hi : Int) : Int := min (max x lo) hi

/-- Componentwise clamp of a logical size into the window's
[minSize, maxSize] bounds. -/
def clampSize (s minSize maxSize : SkISize) : SkISize :=
  ⟨clampI s.width minSize.width maxSize.width,
   clampI s.height minSize.height maxSize.height⟩

/-- Modelled from the spec: the pre-transform matrix derivation inside
ComputeWindowSizeAndTransform (spec 4.4, body not under src/).  The
matrix inverse-composes the compositor transform so content authored in
logical coordinates renders upright: identity for transform 0, and the
standard compensating rotation matrices for the pure rotations 90
(bitmask 4), 180 (bitmask 3) and 270 (bitmask 7).  Other bitmask values
(pure flips and flip-rotation combinations) are left at identity, as the
spec only specifies the rotation compensation. -/
def GetPreTransformMatrix (size : SkISize) (transform : Nat) : SkMatrix :=
  if transform = 0 then SkMatrix.I
  else if transform = 4 then ⟨0, -1, size.height, 1, 0, 0⟩
  else if transform = 3 then ⟨-1, 0, size.width, 0, -1, size.height⟩
  else if transform = 7 then ⟨0, 1, 0, -1, 0, size.width⟩
  else SkMatrix.I

/-- Modelled from the spec: VulkanSurface::ComputeWindowSizeAndTransform
(declared at header line 114, body not under src/).  Per spec 4.4 it is a
pure function that clamps the logical size into [minSize, maxSize], sets
actualSize to the swapped clamped size exactly when the transform has a
90/270-degree rotation component (bit TRANSFORM_ROT_90 of the bitmask)
and to the clamped size otherwise, and recomputes the pre-transform
matrix from the clamped logical size and the transform. -/
def ComputeWindowSizeAndTransform (wi : WindowInfo) (minSize maxSize : SkISize) :
    WindowInfo :=
  let sz := clampSize wi.size minSize maxSize
  let actual := if wi.transform &&& TRANSFORM_ROT_90 ≠ 0 then sz.swap else sz
  { wi with size := sz, actualSize := actual,
            preTransform := GetPreTransformMatrix sz wi.transform }

theorem clampI_idem (x lo hi : Int) : clampI (clampI x lo hi) lo hi = clampI x lo hi := by
  unfold clampI
  rcases le_total x lo with h1 | h1 <;> rcases le_total lo hi with h2 | h2 <;>
    rcases le_total x hi with h3 | h3 <;>
    simp [max_def, min_def] <;> omega

theorem clampSize_idem (s minSize maxSize : SkISize) :
    clampSize (clampSize s minSize maxSize) minSize maxSize = clampSize s minSize maxSize := by
  simp [clampSize, clampI_idem]

/-- A concrete window-info input for the spec scenario: logical size
1080x1920, transform the pure 90-degree rotation. -/
def wiScenario : WindowInfo :=
  { size := ⟨1080, 1920⟩, pixelFormat := 1, dataspace := 0, transform := 4,
    bufferCount := 3, windowUsageFlags := 0,
    actualSize := ⟨0, 0⟩, preTransform := SkMatrix.I }

/-- Size bounds for the scenario wide enough that the clamp is the
identity on 1080x1920. -/
def minScenario : SkISize := ⟨1, 1⟩

/-- Upper size bound for the scenario. -/
def maxScenario : SkISize := ⟨10000, 10000⟩

/-- Model of VulkanSurface::NativeBufferInfo (header lines 56-67): one
slot of the buffer pool.  Handles are modelled as natural numbers; the
wrapped Skia surface and the native buffer are none when the slot is
inactive.  Default field values are the header's in-class initializers
(dequeue_fence = -1, dequeued = false, lastPresentedCount = 0,
hasValidContents = false). -/
structure NativeBufferInfo where
  skSurface : Option Nat := none
  buffer : Option Nat := none
  dequeue_fence : Int := -1
  dequeued : Bool := false
  lastPresentedCount : Nat := 0
  hasValidContents : Bool := false
deriving DecidableEq, Repr

/-- The size of the fixed slot table,
android::BufferQueueDefs::NUM_BUFFER_SLOTS (header line 120). -/
def NUM_BUFFER_SLOTS : Nat := 64

/-- Model of the VulkanSurface manager state (header lines 120-130): the
fixed slot table mNativeBuffers, the window geometry, the global present
counter, and the current-buffer pointer mCurrentBufferInfo, modelled as
an optional index into the slot table (nullptr is none).  The present
counter is a uint32_t in the header; the spec describes it as a
monotonically increasing counter, so it is modelled as an unbounded
natural. -/
structure VulkanSurface where
  mNativeBuffers : List NativeBufferInfo
  mWindowInfo : WindowInfo
  mPresentCount : Nat
  mCurrentBufferInfo : Option Nat
deriving DecidableEq, Repr

/-- Access to one slot of the table; out-of-range indices read as an
inactive default slot (never reached from states the manager produces). -/
def slot (s : VulkanSurface) (i : Nat) : NativeBufferInfo :=
  s.mNativeBuffers.getD i {}

/-- A freshly created manager: all slots inactive, present counter zero,
no current buffer (header in-class initializers mPresentCount = 0 and
mCurrentBufferInfo = nullptr). -/
def VulkanSurface.create (wi : WindowInfo) : VulkanSurface :=
  ⟨List.replicate NUM_BUFFER_SLOTS {}, wi, 0, none⟩

/-- The window collaborator's answer to a dequeue request (spec section
6): either failure, or a native buffer handle together with the
acquisition fence descriptor whose ownership transfers to the manager. -/
inductive WindowDequeueResult where
  | fail
  | ok (bufferHandle : Nat) (fence : Nat)
deriving DecidableEq, Repr

/-- Result of one dequeueNativeBuffer call: the slot index now current
(none on failure), the successor state, and the buffer/fence pairs
canceled back to the window during the attempt. -/
structure DequeueOutcome where
  result : Option Nat
  state : VulkanSurface
  canceled : List (Nat × Int)
deriving DecidableEq, Repr

/-- Modelled from the spec: VulkanSurface::dequeueNativeBuffer (declared
at header line 69, body not under src/), per spec 4.2.  The window's
response and the success of the GPU wrap step are inputs.  The returned
buffer is matched to its slot by identity; if no slot holds it, a free
slot is created with has-valid-contents invalidated and the buffer
wrapped into a fresh surface (which may fail); an existing slot reuses
its surface and contents validity.  On success the slot becomes dequeued
with the acquisition fence and is designated current.  On failure the
state is unchanged and an acquired buffer is canceled back to the window
together with its fence.  A call while a slot is already dequeued is a
contract violation (spec sections 5 and 9); per the spec it is modelled
as a rejected precondition, with no replacement behavior invented. -/
def dequeueNativeBuffer (s : VulkanSurface) (resp : WindowDequeueResult)
    (wrapOk : Bool) : DequeueOutcome :=
  if s.mCurrentBufferInfo.isSome then ⟨none, s, []⟩
  else
    match resp with
    | .fail => ⟨none, s, []⟩
    | .ok handle fence =>
      match s.mNativeBuffers.findIdx? (fun nb => nb.buffer = some handle) with
      | some i =>
        let nb := slot s i
        let nb' := { nb with dequeued := true, dequeue_fence := (fence : Int) }
        ⟨some i, { s with mNativeBuffers := s.mNativeBuffers.set i nb',
                          mCurrentBufferInfo := some i }, []⟩
      | none =>
        match s.mNativeBuffers.findIdx? (fun nb => nb.buffer = none) with
        | some i =>
          if wrapOk then
            let nb' : NativeBufferInfo :=
              { skSurface := some handle, buffer := some handle,
                dequeue_fence := (fence : Int), dequeued := true,
                lastPresentedCount := 0, hasValidContents := false }
            ⟨some i, { s with mNativeBuffers := s.mNativeBuffers.set i nb',
                              mCurrentBufferInfo := some i }, []⟩
          else ⟨none, s, [(handle, (fence : Int))]⟩
        | none => ⟨none, s, [(handle, (fence : Int))]⟩

/-- Modelled from the spec: VulkanSurface::presentCurrentBuffer (declared
at header line 71, body not under src/), per spec 4.3.  The window's
acceptance of the queued buffer is the input presentOk.  With no current
slot it fails as a no-op.  On success it clears dequeued and the dequeue
fence, increments the global present counter, records it into the slot's
lastPresentedCount, sets hasValidContents, and clears the current
pointer.  On failure the slot stays dequeued and nothing changes. -/
def presentCurrentBuffer (s : VulkanSurface) (presentOk : Bool) :
    Bool × VulkanSurface :=
  match s.mCurrentBufferInfo with
  | none => (false, s)
  | some i =>
    if presentOk then
      let nb := slot s i
      let newCount := s.mPresentCount + 1
      let nb' := { nb with
                   dequeued := false, dequeue_fence := (-1),
                   hasValidContents := true, lastPresentedCount := newCount }
      (true, { s with mNativeBuffers := s.mNativeBuffers.set i nb',
                      mPresentCount := newCount, mCurrentBufferInfo := none })
    else (false, s)

/-- Modelled from the spec: VulkanSurface::releaseBuffers (declared at
header line 117, body not under src/), per spec 4.5: every dequeued
buffer is canceled back to the window with its owned fence closed or
transferred, every wrapped surface and buffer reference is released, and
all slots reset to inactive; with no buffer outstanding the current
pointer is cleared. -/
def releaseBuffers (s : VulkanSurface) : VulkanSurface :=
  { s with mNativeBuffers := s.mNativeBuffers.map (fun _ => ({} : NativeBufferInfo)),
           mCurrentBufferInfo := none }

/-- The inline body of VulkanSurface::getCurrentSkSurface (header lines
45-47): return mCurrentBufferInfo ? mCurrentBufferInfo->skSurface :
nullptr. -/
def getCurrentSkSurface (s : VulkanSurface) : Option Nat :=
  match s.mCurrentBufferInfo with
  | none => none
  | some i => (slot s i).skSurface

/-- Buffer age of one slot: presents elapsed since the slot was last
shown, computed from mPresentCount and the slot's lastPresentedCount
(spec section 3 and glossary). -/
def slotAge (s : VulkanSurface) (i : Nat) : Nat :=
  s.mPresentCount - (slot s i).lastPresentedCount

/-- Modelled from the spec: VulkanSurface::getCurrentBuffersAge (declared
at header line 78, body not under src/): the age of the current slot,
zero when no slot is current. -/
def getCurrentBuffersAge (s : VulkanSurface) : Nat :=
  match s.mCurrentBufferInfo with
  | none => 0
  | some i => slotAge s i

/-- One step of the manager: any operation with any collaborator
response. -/
inductive Step : VulkanSurface → VulkanSurface → Prop where
  | dequeue (s : VulkanSurface) (resp : WindowDequeueResult) (wrapOk : Bool) :
      Step s (dequeueNativeBuffer s resp wrapOk).state
  | present (s : VulkanSurface) (presentOk : Bool) :
      Step s (presentCurrentBuffer s presentOk).2
  | release (s : VulkanSurface) : Step s (releaseBuffers s)

/-- States reachable from a freshly created manager by any sequence of
operations. -/
inductive Reachable : VulkanSurface → Prop where
  | init (wi : WindowInfo) : Reachable (VulkanSurface.create wi)
  | step {s s' : VulkanSurface} : Reachable s → Step s s' → Reachable s'

/-- The manager invariant (spec section 3): the slot table has its fixed
size; a dequeued slot is the designated current one; a current slot is
in range and dequeued; a slot's dequeue fence is valid exactly when the
slot is dequeued; and no slot's lastPresentedCount exceeds the global
present counter. -/
def Inv (s : VulkanSurface) : Prop :=
  s.mNativeBuffers.length = NUM_BUFFER_SLOTS ∧
  (∀ i, i < s.mNativeBuffers.length → (slot s i).dequeued = true →
    s.mCurrentBufferInfo = some i) ∧
  (∀ i, s.mCurrentBufferInfo = some i →
    i < s.mNativeBuffers.length ∧ (slot s i).dequeued = true) ∧
  (∀ i, i < s.mNativeBuffers.length →
    ((slot s i).dequeue_fence ≠ -1 ↔ (slot s i).dequeued = true)) ∧
  (∀ i, i < s.mNativeBuffers.length →
    (slot s i).lastPresentedCount ≤ s.mPresentCount)

theorem getD_set_self {α : Type} (l : List α) (i : Nat) (a d : α) (h : i < l.length) :
    (l.set i a).getD i d = a := by
  simp [List.getD, List.getElem?_set_eq_of_lt, h]

theorem getD_set_ne {α : Type} (l : List α) {i j : Nat} (a d : α) (h : i ≠ j) :
    (l.set i a).getD j d = l.getD j d := by
  simp [List.getD, List.getElem?_set_ne, h]

theorem getD_map_const {α β : Type} (l : List α) (i : Nat) (c : β) :
    (l.map (fun _ => c)).getD i c = c := by
  induction l generalizing i with
  | nil => simp
  | cons x xs ih =>
    cases i with
    | zero => simp
    | succ n =>
      rw [List.map_cons, List.getD_cons_succ]
      exact ih n

theorem getD_replicate_self {α : Type} (n i : Nat) (a : α) :
    (List.replicate n a).getD i a = a := by
  induction n generalizing i with
  | zero => simp
  | succ m ih =>
    cases i with
    | zero => simp [List.replicate_succ]
    | succ k =>
      rw [List.replicate_succ, List.getD_cons_succ]
      exact ih k

theorem findIdx?_lt_length {α : Type} {l : List α} {p : α → Bool} {i : Nat}
    (h : l.findIdx? p = some i) : i < l.length :=
  (List.findIdx?_eq_some_iff_findIdx_eq.mp h).1

theorem slot_create (wi : WindowInfo) (i : Nat) :
    slot (VulkanSurface.create wi) i = {} := by
  unfold slot VulkanSurface.create
  exact getD_replicate_self NUM_BUFFER_SLOTS i ({} : NativeBufferInfo)

theorem slot_release (s : VulkanSurface) (i : Nat) : slot (releaseBuffers s) i = {} := by
  unfold slot releaseBuffers
  exact getD_map_const s.mNativeBuffers i ({} : NativeBufferInfo)

theorem inv_create (wi : WindowInfo) : Inv (VulkanSurface.create wi) := by
  refine ⟨by simp [VulkanSurface.create], ?_, ?_, ?_, ?_⟩
  · intro i _ hd
    rw [slot_create] at hd
    simp at hd
  · intro i hc
    simp [VulkanSurface.create] at hc
  · intro i _
    rw [slot_create]
    simp
  · intro i _
    rw [slot_create]
    simp [VulkanSurface.create]

theorem inv_release (s : VulkanSurface) (h : Inv s) : Inv (releaseBuffers s) := by
  refine ⟨?_, ?_, ?_, ?_, ?_⟩
  · simpa [releaseBuffers] using h.1
  · intro i _ hd
    rw [slot_release] at hd
    simp at hd
  · intro i hc
    simp [releaseBuffers] at hc
  · intro i _
    rw [slot_release]
    simp
  · intro i _
    rw [slot_release]
    simp

theorem inv_present (s : VulkanSurface) (presentOk : Bool) (h : Inv s) :
    Inv (presentCurrentBuffer s presentOk).2 := by
  obtain ⟨hlen, hdc, hcd, hf, hle⟩ := h
  cases hc : s.mCurrentBufferInfo with
  | none =>
    simp only [presentCurrentBuffer, hc]
    exact ⟨hlen, hdc, hcd, hf, hle⟩
  | some i =>
    obtain ⟨hilen, hideq⟩ := hcd i hc
    cases presentOk with
    | false =>
      simp only [presentCurrentBuffer, hc, Bool.false_eq_true, if_false]
      exact ⟨hlen, hdc, hcd, hf, hle⟩
    | true =>
      simp only [presentCurrentBuffer, hc, if_true]
      refine ⟨?_, ?_, ?_, ?_, ?_⟩
      · simpa [List.length_set] using hlen
      · intro j hjlen hjdeq
        simp only [slot] at hjdeq
        by_cases hj : j = i
        · subst hj
          rw [getD_set_self _ _ _ _ hilen] at hjdeq
          simp at hjdeq
        · rw [getD_set_ne _ _ _ (fun he => hj he.symm)] at hjdeq
          have := hdc j (by simpa [List.length_set] using hjlen) hjdeq
          rw [hc] at this
          exact absurd (Option.some.inj this).symm hj
      · intro j hj
        simp at hj
      · intro j hjlen
        simp only [slot]
        by_cases hj : j = i
        · subst hj
          rw [getD_set_self _ _ _ _ hilen]
          simp
        · rw [getD_set_ne _ _ _ (fun he => hj he.symm)]
          exact hf j (by simpa [List.length_set] using hjlen)
      · intro j hjlen
        simp only [slot]
        by_cases hj : j = i
        · subst hj
          rw [getD_set_self _ _ _ _ hilen]
        · rw [getD_set_ne _ _ _ (fun he => hj he.symm)]
          have := hle j (by simpa [List.length_set] using hjlen)
          simp only [slot] at this
          omega

theorem inv_dequeue (s : VulkanSurface) (resp : WindowDequeueResult) (wrapOk : Bool)
    (h : Inv s) : Inv (dequeueNativeBuffer s resp wrapOk).state := by
  obtain ⟨hlen, hdc, hcd, hf, hle⟩ := h
  by_cases hcur : s.mCurrentBufferInfo.isSome
  · simp only [dequeueNativeBuffer, hcur, if_true]
    exact ⟨hlen, hdc, hcd, hf, hle⟩
  · have hnone : s.mCurrentBufferInfo = none := Option.not_isSome_iff_eq_none.mp hcur
    have hnodeq : ∀ j, j < s.mNativeBuffers.length → (slot s j).dequeued = false := by
      intro j hj
      by_contra hne
      have : (slot s j).dequeued = true := by
        cases hb : (slot s j).dequeued
        · exact absurd hb hne
        · rfl
      rw [hdc j hj this] at hnone
      exact Option.noConfusion hnone
    cases resp with
    | fail =>
      simp only [dequeueNativeBuffer, hcur, Bool.false_eq_true, if_false]
      exact ⟨hlen, hdc, hcd, hf, hle⟩
    | ok handle fence =>
      cases hfind : s.mNativeBuffers.findIdx? (fun nb => nb.buffer = some handle) with
      | some i =>
        have hilen : i < s.mNativeBuffers.length := findIdx?_lt_length hfind
        simp only [dequeueNativeBuffer, hcur, Bool.false_eq_true, if_false, hfind]
        refine ⟨?_, ?_, ?_, ?_, ?_⟩
        · simpa [List.length_set] using hlen
        · intro j hjlen hjdeq
          simp only [slot] at hjdeq
          by_cases hj : j = i
          · simp [hj]
          · rw [getD_set_ne _ _ _ (fun he => hj he.symm)] at hjdeq
            have := hnodeq j (by simpa [List.length_set] using hjlen)
            simp only [slot] at this
            rw [this] at hjdeq
            exact Bool.noConfusion hjdeq
        · intro j hj
          have hji : j = i := (Option.some.inj hj).symm
          subst hji
          refine ⟨by simpa [List.length_set] using hilen, ?_⟩
          simp only [slot]
          rw [getD_set_self _ _ _ _ hilen]
        · intro j hjlen
          simp only [slot]
          by_cases hj : j = i
          · subst hj
            rw [getD_set_self _ _ _ _ hilen]
            refine ⟨fun _ => rfl, fun _ => ?_⟩
            show (fence : Int) ≠ -1
            omega
          · rw [getD_set_ne _ _ _ (fun he => hj he.symm)]
            exact hf j (by simpa [List.length_set] using hjlen)
        · intro j hjlen
          simp only [slot]
          by_cases hj : j = i
          · subst hj
            rw [getD_set_self _ _ _ _ hilen]
            exact hle j hilen
          · rw [getD_set_ne _ _ _ (fun he => hj he.symm)]
            exact hle j (by simpa [List.length_set] using hjlen)
      | none =>
        cases hfree : s.mNativeBuffers.findIdx? (fun nb => nb.buffer = none) with
        | some i =>
          have hilen : i < s.mNativeBuffers.length := findIdx?_lt_length hfree
          cases wrapOk with
          | false =>
            simp only [dequeueNativeBuffer, hcur, Bool.false_eq_true, if_false, hfind, hfree]
            exact ⟨hlen, hdc, hcd, hf, hle⟩
          | true =>
            simp only [dequeueNativeBuffer, hcur, Bool.false_eq_true, if_false, hfind, hfree,
              if_true]
            refine ⟨?_, ?_, ?_, ?_, ?_⟩
            · simpa [List.length_set] using hlen
            · intro j hjlen hjdeq
              simp only [slot] at hjdeq
              by_cases hj : j = i
              · simp [hj]
              · rw [getD_set_ne _ _ _ (fun he => hj he.symm)] at hjdeq
                have := hnodeq j (by simpa [List.length_set] using hjlen)
                simp only [slot] at this
                rw [this] at hjdeq
                exact Bool.noConfusion hjdeq
            · intro j hj
              have hji : j = i := (Option.some.inj hj).symm
              subst hji
              refine ⟨by simpa [List.length_set] using hilen, ?_⟩
              simp only [slot]
              rw [getD_set_self _ _ _ _ hilen]
            · intro j hjlen
              simp only [slot]
              by_cases hj : j = i
              · subst hj
                rw [getD_set_self _ _ _ _ hilen]
                refine ⟨fun _ => rfl, fun _ => ?_⟩
                show (fence : Int) ≠ -1
                omega
              · rw [getD_set_ne _ _ _ (fun he => hj he.symm)]
                exact hf j (by simpa [List.length_set] using hjlen)
            · intro j hjlen
              simp only [slot]
              by_cases hj : j = i
              · subst hj
                rw [getD_set_self _ _ _ _ hilen]
                exact Nat.zero_le _
              · rw [getD_set_ne _ _ _ (fun he => hj he.symm)]
                exact hle j (by simpa [List.length_set] using hjlen)
        | none =>
          simp only [dequeueNativeBuffer, hcur, Bool.false_eq_true, if_false, hfind, hfree]
          exact ⟨hlen, hdc, hcd, hf, hle⟩

theorem inv_step {s s' : VulkanSurface} (h : Inv s) (hs : Step s s') : Inv s' := by
  cases hs with
  | dequeue resp wrapOk => exact inv_dequeue _ resp wrapOk h
  | present presentOk => exact inv_present _ presentOk h
  | release => exact inv_release _ h

theorem reachable_inv {s : VulkanSurface} (h : Reachable s) : Inv s := by
  induction h with
  | init wi => exact inv_create wi
  | step _ hs ih => exact inv_step ih hs

/-- A freshly created manager used by the concrete scenarios. -/
def sInit : VulkanSurface := VulkanSurface.create wiScenario

/-- State after one successful dequeue of buffer 100 with fence 5. -/
def sDeq : VulkanSurface := (dequeueNativeBuffer sInit (.ok 100 5) true).state

/-- State after presenting the dequeued buffer successfully. -/
def sPres : VulkanSurface := (presentCurrentBuffer sDeq true).2

/-- State after a second successful dequeue, of a different buffer 200. -/
def sDeq2 : VulkanSurface := (dequeueNativeBuffer sPres (.ok 200 6) true).state

theorem reach_sInit : Reachable sInit := Reachable.init wiScenario

theorem reach_sDeq : Reachable sDeq :=
  Reachable.step reach_sInit (Step.dequeue sInit (.ok 100 5) true)

theorem reach_sPres : Reachable sPres :=
  Reachable.step reach_sDeq (Step.present sDeq true)

theorem reach_sDeq2 : Reachable sDeq2 :=
  Reachable.step reach_sPres (Step.dequeue sPres (.ok 200 6) true)

/-- Claim C1: over every sequence of dequeueNativeBuffer and
presentCurrentBuffer operations from a freshly created manager, at most
one slot in the slot table has dequeued = true at any instant, and that
slot, when it exists, is the one designated current
(mCurrentBufferInfo). -/
theorem c1_single_dequeued_is_current (s : VulkanSurface) (h : Reachable s) :
    (∀ i j, i < s.mNativeBuffers.length → j < s.mNativeBuffers.length →
      (slot s i).dequeued = true → (slot s j).dequeued = true → i = j) ∧
    (∀ i, i < s.mNativeBuffers.length → (slot s i).dequeued = true →
      s.mCurrentBufferInfo = some i) := by
  obtain ⟨-, hdc, -, -, -⟩ := reachable_inv h
  refine ⟨?_, hdc⟩
  intro i j hi hj hdi hdj
  have h1 := hdc i hi hdi
  have h2 := hdc j hj hdj
  rw [h1] at h2
  exact Option.some.inj h2

/-- Witness for C1 at the reachable state sDeq, whose slot 0 is
dequeued. -/
theorem c1_single_dequeued_is_current_witness : sDeq.mCurrentBufferInfo = some 0 :=
  (c1_single_dequeued_is_current sDeq reach_sDeq).2 0 (by decide) (by decide)

/-- Claim C2: for every slot of a reachable manager state, the slot's
dequeue_fence is a valid descriptor (not -1) if and only if the slot's
dequeued flag is true; the states after dequeueNativeBuffer,
presentCurrentBuffer and releaseBuffers are exactly the reachable
states. -/
theorem c2_fence_valid_iff_dequeued (s : VulkanSurface) (h : Reachable s) :
    ∀ i, i < s.mNativeBuffers.length →
      ((slot s i).dequeue_fence ≠ -1 ↔ (slot s i).dequeued = true) :=
  (reachable_inv h).2.2.2.1

/-- Witness for C2 at the reachable state sDeq, slot 0. -/
theorem c2_fence_valid_iff_dequeued_witness :
    (slot sDeq 0).dequeue_fence ≠ -1 ↔ (slot sDeq 0).dequeued = true :=
  c2_fence_valid_iff_dequeued sDeq reach_sDeq 0 (by decide)

/-- Claim C3: when presentCurrentBuffer runs with a current slot and
returns true, on return that slot has dequeued = false, its dequeue
fence cleared to -1, hasValidContents = true, the global counter
mPresentCount one greater than before, the slot's lastPresentedCount
equal to the new counter, and the current pointer cleared. -/
theorem c3_present_success_postcondition (s : VulkanSurface) (i : Nat)
    (presentOk : Bool) (hc : s.mCurrentBufferInfo = some i)
    (hlen : i < s.mNativeBuffers.length)
    (hres : (presentCurrentBuffer s presentOk).1 = true) :
    (slot (presentCurrentBuffer s presentOk).2 i).dequeued = false ∧
    (slot (presentCurrentBuffer s presentOk).2 i).dequeue_fence = -1 ∧
    (slot (presentCurrentBuffer s presentOk).2 i).hasValidContents = true ∧
    (presentCurrentBuffer s presentOk).2.mPresentCount = s.mPresentCount + 1 ∧
    (slot (presentCurrentBuffer s presentOk).2 i).lastPresentedCount =
      (presentCurrentBuffer s presentOk).2.mPresentCount ∧
    (presentCurrentBuffer s presentOk).2.mCurrentBufferInfo = none := by
  have hpOk : presentOk = true := by
    cases presentOk
    · simp [presentCurrentBuffer, hc] at hres
    · rfl
  subst hpOk
  simp only [presentCurrentBuffer, hc, if_true, slot]
  rw [getD_set_self _ _ _ _ hlen]
  refine ⟨?_, ?_, ?_, ?_, ?_, ?_⟩ <;> trivial

/-- Witness for C3 at the state sDeq with current slot 0. -/
theorem c3_present_success_postcondition_witness :
    (slot (presentCurrentBuffer sDeq true).2 0).dequeued = false ∧
    (slot (presentCurrentBuffer sDeq true).2 0).dequeue_fence = -1 ∧
    (slot (presentCurrentBuffer sDeq true).2 0).hasValidContents = true ∧
    (presentCurrentBuffer sDeq true).2.mPresentCount = sDeq.mPresentCount + 1 ∧
    (slot (presentCurrentBuffer sDeq true).2 0).lastPresentedCount =
      (presentCurrentBuffer sDeq true).2.mPresentCount ∧
    (presentCurrentBuffer sDeq true).2.mCurrentBufferInfo = none :=
  c3_present_success_postcondition sDeq 0 true (by decide) (by decide) (by decide)

/-- Claim C4: presentCurrentBuffer with no current slot returns false and
changes nothing, and whenever it returns false every slot that was
dequeued before the call is still dequeued afterwards (the manager never
cancels on present failure). -/
theorem c4_present_failure_noop (s : VulkanSurface) (presentOk : Bool) :
    (s.mCurrentBufferInfo = none → presentCurrentBuffer s presentOk = (false, s)) ∧
    ((presentCurrentBuffer s presentOk).1 = false →
      (presentCurrentBuffer s presentOk).2 = s) ∧
    (∀ i, (presentCurrentBuffer s presentOk).1 = false →
      (slot s i).dequeued = true →
      (slot (presentCurrentBuffer s presentOk).2 i).dequeued = true) := by
  have hkey : (presentCurrentBuffer s presentOk).1 = false →
      (presentCurrentBuffer s presentOk).2 = s := by
    cases hc : s.mCurrentBufferInfo with
    | none => intro _; simp [presentCurrentBuffer, hc]
    | some j =>
      cases presentOk with
      | false => intro _; simp [presentCurrentBuffer, hc]
      | true => intro hres; simp [presentCurrentBuffer, hc] at hres
  refine ⟨?_, hkey, ?_⟩
  · intro hc
    simp [presentCurrentBuffer, hc]
  · intro i hres hdeq
    rw [hkey hres]
    exact hdeq

/-- Witness for C4 at the fresh state sInit, which has no current slot. -/
theorem c4_present_failure_noop_witness :
    presentCurrentBuffer sInit true = (false, sInit) :=
  (c4_present_failure_noop sInit true).1 (by decide)

/-- Claim C5: ComputeWindowSizeAndTransform sets actualSize to the
clamped logical size with width and height swapped exactly when the
transform has a 90/270-degree rotation component, and to the clamped
logical size unchanged otherwise; in particular logical size 1080x1920
with the 90-degree rotation yields actualSize 1920x1080 and a
non-identity preTransform. -/
theorem c5_actual_size_rotation (wi : WindowInfo) (minSize maxSize : SkISize) :
    (wi.transform &&& TRANSFORM_ROT_90 ≠ 0 →
      (ComputeWindowSizeAndTransform wi minSize maxSize).actualSize =
        (clampSize wi.size minSize maxSize).swap) ∧
    (wi.transform &&& TRANSFORM_ROT_90 = 0 →
      (ComputeWindowSizeAndTransform wi minSize maxSize).actualSize =
        clampSize wi.size minSize maxSize) ∧
    (ComputeWindowSizeAndTransform wiScenario minScenario maxScenario).actualSize =
      ⟨1920, 1080⟩ ∧
    (ComputeWindowSizeAndTransform wiScenario minScenario maxScenario).preTransform ≠
      SkMatrix.I := by
  refine ⟨?_, ?_, by decide, by decide⟩
  · intro h
    simp [ComputeWindowSizeAndTransform, h]
  · intro h
    simp [ComputeWindowSizeAndTransform, h]

/-- Witness for C5 at the scenario input, whose transform has the
90-degree rotation component. -/
theorem c5_actual_size_rotation_witness :
    (ComputeWindowSizeAndTransform wiScenario minScenario maxScenario).actualSize =
      (clampSize wiScenario.size minScenario maxScenario).swap :=
  (c5_actual_size_rotation wiScenario minScenario maxScenario).1 (by decide)

/-- Claim C6: ComputeWindowSizeAndTransform is deterministic and
idempotent: applying it twice with the same bounds yields exactly the
result of applying it once, and identical inputs yield identical
outputs. -/
theorem c6_compute_idempotent (wi : WindowInfo) (minSize maxSize : SkISize) :
    ComputeWindowSizeAndTransform (ComputeWindowSizeAndTransform wi minSize maxSize)
        minSize maxSize = ComputeWindowSizeAndTransform wi minSize maxSize ∧
    (∀ wi2 min2 max2, wi = wi2 → minSize = min2 → maxSize = max2 →
      ComputeWindowSizeAndTransform wi minSize maxSize =
        ComputeWindowSizeAndTransform wi2 min2 max2) := by
  constructor
  · simp [ComputeWindowSizeAndTransform, clampSize_idem]
  · intro wi2 min2 max2 h1 h2 h3
    rw [h1, h2, h3]

/-- Witness for C6 at the scenario input. -/
theorem c6_compute_idempotent_witness :
    ComputeWindowSizeAndTransform
        (ComputeWindowSizeAndTransform wiScenario minScenario maxScenario)
        minScenario maxScenario =
      ComputeWindowSizeAndTransform wiScenario minScenario maxScenario ∧
    ComputeWindowSizeAndTransform wiScenario minScenario maxScenario =
      ComputeWindowSizeAndTransform wiScenario minScenario maxScenario :=
  ⟨(c6_compute_idempotent wiScenario minScenario maxScenario).1,
   (c6_compute_idempotent wiScenario minScenario maxScenario).2 wiScenario
     minScenario maxScenario rfl rfl rfl⟩

/-- Claim C7: whenever dequeueNativeBuffer fails it returns null and
leaves the slot table and current pointer exactly as before; a buffer
acquired from the window during the failed attempt is canceled back to
the window together with its fence, so the manager keeps no fence from
the attempt; and a subsequent dequeue succeeds once the window supplies
a buffer (concrete retry scenario from the fresh manager). -/
theorem c7_dequeue_failure_noop (s : VulkanSurface) (resp : WindowDequeueResult)
    (wrapOk : Bool) (h : (dequeueNativeBuffer s resp wrapOk).result = none) :
    (dequeueNativeBuffer s resp wrapOk).state = s ∧
    (∀ handle fence, resp = .ok handle fence → s.mCurrentBufferInfo = none →
      (dequeueNativeBuffer s resp wrapOk).canceled = [(handle, (fence : Int))]) ∧
    (dequeueNativeBuffer
      (dequeueNativeBuffer (VulkanSurface.create wiScenario) .fail true).state
      (.ok 100 5) true).result = some 0 := by
  refine ⟨?_, ?_, by decide⟩
  · by_cases hcur : s.mCurrentBufferInfo.isSome
    · simp [dequeueNativeBuffer, hcur]
    · cases resp with
      | fail => simp [dequeueNativeBuffer, hcur]
      | ok handle fence =>
        cases hfind : s.mNativeBuffers.findIdx? (fun nb => nb.buffer = some handle) with
        | some i => simp [dequeueNativeBuffer, hcur, hfind] at h
        | none =>
          cases hfree : s.mNativeBuffers.findIdx? (fun nb => nb.buffer = none) with
          | some i =>
            cases wrapOk with
            | true => simp [dequeueNativeBuffer, hcur, hfind, hfree] at h
            | false => simp [dequeueNativeBuffer, hcur, hfind, hfree]
          | none => simp [dequeueNativeBuffer, hcur, hfind, hfree]
  · intro handle fence hresp hnone
    subst hresp
    have hcur : s.mCurrentBufferInfo.isSome = false := by
      rw [hnone]; rfl
    cases hfind : s.mNativeBuffers.findIdx? (fun nb => nb.buffer = some handle) with
    | some i => simp [dequeueNativeBuffer, hcur, hfind] at h
    | none =>
      cases hfree : s.mNativeBuffers.findIdx? (fun nb => nb.buffer = none) with
      | some i =>
        cases wrapOk with
        | true => simp [dequeueNativeBuffer, hcur, hfind, hfree] at h
        | false => simp [dequeueNativeBuffer, hcur, hfind, hfree]
      | none => simp [dequeueNativeBuffer, hcur, hfind, hfree]

/-- Witness for C7: a wrap failure on the fresh manager. -/
theorem c7_dequeue_failure_noop_witness :
    (dequeueNativeBuffer sInit (.ok 100 5) false).state = sInit :=
  (c7_dequeue_failure_noop sInit (.ok 100 5) false (by decide)).1

/-- Claim C8: releaseBuffers clears all dequeue state, leaving every slot
with dequeued = false and no owned fence descriptor (dequeue_fence =
-1), and it is idempotent: calling it again changes nothing. -/
theorem c8_release_clears_and_idempotent (s : VulkanSurface) :
    (∀ i, (slot (releaseBuffers s) i).dequeued = false ∧
      (slot (releaseBuffers s) i).dequeue_fence = -1) ∧
    releaseBuffers (releaseBuffers s) = releaseBuffers s := by
  constructor
  · intro i
    rw [slot_release]
    exact ⟨rfl, rfl⟩
  · cases s with
    | mk bufs wi cnt cur => simp [releaseBuffers, List.map_map, Function.comp]

/-- Claim C9: after a successful present of the current slot, that
slot's buffer age (mPresentCount minus the slot's lastPresentedCount) is
0, and a successful present of the current slot increments the age of
every other slot by one. -/
theorem c9_age_reset_and_increment (s : VulkanSurface) (i : Nat)
    (hc : s.mCurrentBufferInfo = some i) (hreach : Reachable s) :
    slotAge (presentCurrentBuffer s true).2 i = 0 ∧
    (∀ j, j ≠ i → j < s.mNativeBuffers.length →
      slotAge (presentCurrentBuffer s true).2 j = slotAge s j + 1) := by
  obtain ⟨-, -, hcd, -, hle⟩ := reachable_inv hreach
  have hlen : i < s.mNativeBuffers.length := (hcd i hc).1
  constructor
  · simp only [presentCurrentBuffer, hc, if_true, slotAge, slot]
    rw [getD_set_self _ _ _ _ hlen]
    simp
  · intro j hj hjlen
    have hjle := hle j hjlen
    simp only [slot] at hjle
    simp only [presentCurrentBuffer, hc, if_true, slotAge, slot]
    rw [getD_set_ne _ _ _ (fun he => hj he.symm)]
    omega

/-- Witness for C9 at the state sDeq2 with current slot 1: presenting
slot 1 resets its age to 0 and increments the age of slot 0. -/
theorem c9_age_reset_and_increment_witness :
    slotAge (presentCurrentBuffer sDeq2 true).2 1 = 0 ∧
    slotAge (presentCurrentBuffer sDeq2 true).2 0 = slotAge sDeq2 0 + 1 := by
  have h := c9_age_reset_and_increment sDeq2 1 (by decide) reach_sDeq2
  exact ⟨h.1, h.2 0 (by decide) (by decide)⟩

/-- Claim C10: getCurrentSkSurface is total at the public interface: with
no current buffer it returns nullptr rather than dereferencing the
pointer, and with a current buffer it returns that slot's wrapped
surface. -/
theorem c10_getCurrentSkSurface_total (s : VulkanSurface) :
    (s.mCurrentBufferInfo = none → getCurrentSkSurface s = none) ∧
    (∀ i, s.mCurrentBufferInfo = some i →
      getCurrentSkSurface s = (slot s i).skSurface) := by
  refine ⟨fun h => ?_, fun i h => ?_⟩ <;> simp [getCurrentSkSurface, h]

/-- Witness for C10 at the state sPres, reached after a successful
present, whose current pointer is cleared. -/
theorem c10_getCurrentSkSurface_total_witness : getCurrentSkSurface sPres = none :=
  (c10_getCurrentSkSurface_total sPres).1 (by decide)

end VulkanSurfaceModel
